import Mathlib

/-!
Verification of the juni-cli agent execution core against its design
specification.

The development shallowly embeds, from the JavaScript sources:
  * the output sanitizer `stripAnsi` (a chain of eight global regex-delete
    passes) as a deterministic scanner over `List Char`,
  * the command-capture session of `runAgentCommand` (buffer, sentinel
    matcher on `ssh:output`, 20s timeout handler, abort handler) as a state
    machine over explicit events,
  * the keystroke-capture session of `sendAgentKeys`,
  * the agent control loop `startAgentLoop` (pause gate, abort checks,
    bounded iteration, tool-call dispatch, history construction) driven by
    an environment describing the model responses and the timing of
    pause/stop/resume calls,
  * the retry entry point and its interaction with the captured
    conversation history,
  * the terminal-sharing relay (`cleanupSession`, `handleViewer`).

Machine strings are `List Char` / `String`; the regexes of the source are
hand-compiled to per-position matchers (each of the eight patterns is
backtracking-free, so a greedy matcher is exact).
-/

namespace Juni

/-! ## Output sanitizer (`stripAnsi`, Terminal component) -/

/-- Character class `[a-zA-Z]`. -/
def isLetterCh (c : Char) : Bool := c.isAlpha

/-- Character class `[0-9;]`. -/
def isDigitSemiCh (c : Char) : Bool := c.isDigit || c == ';'

/-- Private-mode markers `[?=>!]` of the first CSI pattern. -/
def isPrivateCh (c : Char) : Bool := c == '?' || c == '=' || c == '>' || c == '!'

/-- Intermediate bytes, space through slash (0x20..0x2f). -/
def isIntermediateCh (c : Char) : Bool := ' ' ≤ c && c ≤ '/'

/-- Final bytes `[@-~]` (0x40..0x7e). -/
def isFinalCh (c : Char) : Bool := '@' ≤ c && c ≤ '~'

/-- Character class `[A-Z0-9]` used by the charset-select pattern. -/
def isUpperDigitCh (c : Char) : Bool := c.isUpper || c.isDigit

/-- Length of the greedy span of characters satisfying `p` at the head. -/
def spanLen (p : Char → Bool) (l : List Char) : Nat :=
  (l.takeWhile p).length

/-- Greedy match of `[0-9;]*[a-zA-Z]`; returns the total length including
the final letter.  The classes are disjoint, so greediness is exact. -/
def matchDigitsLetter (l : List Char) : Option Nat :=
  let n := spanLen isDigitSemiCh l
  match l.drop n with
  | c :: _ => if isLetterCh c then some (n + 1) else none
  | [] => none

/-- Pattern 1 of `stripAnsi`: `ESC [ [?=>!]? [0-9;]* [a-zA-Z]`. -/
def matchCSI1 : List Char → Option Nat
  | '\x1b' :: '[' :: rest =>
    match rest with
    | c :: cs =>
      if isPrivateCh c then (matchDigitsLetter cs).map (· + 3)
      else (matchDigitsLetter (c :: cs)).map (· + 2)
    | [] => none
  | _ => none

/-- Pattern 2 of `stripAnsi`: the 8-bit CSI `\x9b [0-9;]* [a-zA-Z]`. -/
def matchCSI8bit : List Char → Option Nat
  | '\x9b' :: rest => (matchDigitsLetter rest).map (· + 1)
  | _ => none

/-- Index of the last occurrence of the two-character sequence
`ESC \\` in the list, if any. -/
def lastEscBackslashIdx : List Char → Option Nat
  | [] => none
  | c :: cs =>
    match lastEscBackslashIdx cs with
    | some q => some (q + 1)
    | none =>
      match c, cs with
      | '\x1b', '\\' :: _ => some 0
      | _, _ => none

/-- Pattern 3 of `stripAnsi`: OSC `ESC ] [^\x07]* (\x07 | ESC \\)`.
The greedy body runs to the first BEL if one exists (the first alternative
then succeeds there); otherwise the engine backtracks to the last
`ESC \\` terminator. -/
def matchOSC : List Char → Option Nat
  | '\x1b' :: ']' :: rest =>
    match rest.findIdx? (· == '\x07') with
    | some f => some (2 + f + 1)
    | none =>
      match lastEscBackslashIdx rest with
      | some q => some (2 + q + 2)
      | none => none
  | _ => none

/-- Pattern 4 of `stripAnsi`: charset select `ESC [()] [A-Z0-9]`. -/
def matchCharset : List Char → Option Nat
  | '\x1b' :: b :: c :: _ =>
    if (b == '(' || b == ')') && isUpperDigitCh c then some 3 else none
  | _ => none

/-- Pattern 5 of `stripAnsi`: single-character escapes `ESC [>=<~}|]`. -/
def matchEscSingle : List Char → Option Nat
  | '\x1b' :: c :: _ =>
    if c == '>' || c == '=' || c == '<' || c == '~' || c == '}' || c == '|'
    then some 2 else none
  | _ => none

/-- Pattern 6 of `stripAnsi`: full CSI, ESC bracket, digit-semicolon span,
intermediate-byte span, final byte. -/
def matchCSI2 : List Char → Option Nat
  | '\x1b' :: '[' :: rest =>
    let n := spanLen isDigitSemiCh rest
    let m := spanLen isIntermediateCh (rest.drop n)
    match (rest.drop n).drop m with
    | c :: _ => if isFinalCh c then some (2 + n + m + 1) else none
    | [] => none
  | _ => none

/-- Pattern 7 of `stripAnsi`: bare bracket sequences `\[ [?]? [0-9;]* [a-zA-Z]`
(line-buffering artifacts that lost their ESC). -/
def matchBareBracket : List Char → Option Nat
  | '[' :: rest =>
    match rest with
    | '?' :: cs => (matchDigitsLetter cs).map (· + 2)
    | _ => (matchDigitsLetter rest).map (· + 1)
  | _ => none

/-- Pattern 8 of `stripAnsi`: carriage returns. -/
def matchCR : List Char → Option Nat
  | '\r' :: _ => some 1
  | _ => none

/-- One global delete pass of the replace-with-empty-string method: scan left
to right; where the matcher fires, drop the matched characters and resume
after them; otherwise keep the character.  Fuel is consumed one unit per
scanned position, so `l.length` units always suffice. -/
def replaceAllGo (m : List Char → Option Nat) : Nat → List Char → List Char
  | _, [] => []
  | 0, l => l
  | fuel + 1, c :: cs =>
    match m (c :: cs) with
    | some (n + 1) => replaceAllGo m fuel (cs.drop n)
    | _ => c :: replaceAllGo m fuel cs

/-- Global delete of all matches of `m`, as performed by one
delete pass of the source. -/
def replaceAll (m : List Char → Option Nat) (l : List Char) : List Char :=
  replaceAllGo m l.length l

/-- The sanitizer `stripAnsi` from the Terminal component: the eight delete
passes in source order (CSI, 8-bit CSI, OSC, charset select, single-char
escapes, full CSI, bare brackets, carriage returns). -/
def stripAnsiChars (l : List Char) : List Char :=
  replaceAll matchCR
    (replaceAll matchBareBracket
      (replaceAll matchCSI2
        (replaceAll matchEscSingle
          (replaceAll matchCharset
            (replaceAll matchOSC
              (replaceAll matchCSI8bit
                (replaceAll matchCSI1 l)))))))

/-- String-level wrapper of the sanitizer. -/
def stripAnsi (s : String) : String := String.mk (stripAnsiChars s.data)

/-- Whitespace stripped by JavaScript `String.prototype.trim()` on the
character range produced by a terminal (space, tab, LF, CR, VT, FF, NBSP). -/
def isJsSpace (c : Char) : Bool :=
  c == ' ' || c == '\t' || c == '\n' || c == '\r' || c == '\x0b' ||
  c == '\x0c' || c == '\xa0'

/-- JavaScript `trim()`: drop whitespace from both ends. -/
def jsTrim (l : List Char) : List Char :=
  ((l.dropWhile isJsSpace).reverse.dropWhile isJsSpace).reverse

/-- Decides whether `m` matches at some position of `l` (at any suffix). -/
def hasMatchAnywhere (m : List Char → Option Nat) : List Char → Bool
  | [] => (m []).isSome
  | c :: cs => (m (c :: cs)).isSome || hasMatchAnywhere m cs

/-- An input contains no escape sequences when none of the eight stripped
patterns occurs anywhere in it. -/
def escapeFree (l : List Char) : Bool :=
  !hasMatchAnywhere matchCSI1 l &&
  !hasMatchAnywhere matchCSI8bit l &&
  !hasMatchAnywhere matchOSC l &&
  !hasMatchAnywhere matchCharset l &&
  !hasMatchAnywhere matchEscSingle l &&
  !hasMatchAnywhere matchCSI2 l &&
  !hasMatchAnywhere matchBareBracket l &&
  !hasMatchAnywhere matchCR l

/-! ## Command capture session (`runAgentCommand` and the `ssh:output`
sentinel watcher of the Terminal component) -/

/-- The sentinel token echoed after every agent command. -/
def AGENT_SENTINEL : String := "__JUNI_AGENT_DONE__"

/-- The sentinel as a character list. -/
def sentinelChars : List Char := AGENT_SENTINEL.data

/-- Whether the regex `[\r\n]__JUNI_AGENT_DONE__` matches at the head of
the list: a line break immediately followed by the sentinel token. -/
def isSentinelAt : List Char → Bool
  | c :: cs => (c == '\r' || c == '\n') && sentinelChars.isPrefixOf cs
  | [] => false

/-- Index of the first match of `[\r\n]__JUNI_AGENT_DONE__`
(`sentinelPattern.exec(stripped).index` of the source). -/
def sentinelMatchIdx : List Char → Option Nat
  | [] => none
  | c :: cs =>
    if isSentinelAt (c :: cs) then some 0
    else (sentinelMatchIdx cs).map (· + 1)

/-- Index of the first `'\n'` (`String.prototype.indexOf`). -/
def indexOfNL : List Char → Option Nat
  | [] => none
  | c :: cs => if c == '\n' then some 0 else (indexOfNL cs).map (· + 1)

/-- Extraction step of the sentinel watcher: text before the sentinel match,
first line (the echoed command) dropped, trimmed. -/
def extractOutput (stripped : List Char) (i : Nat) : List Char :=
  let beforeSentinel := stripped.take i
  match indexOfNL beforeSentinel with
  | some j => jsTrim (beforeSentinel.drop (j + 1))
  | none => jsTrim beforeSentinel

/-- The sentinel watcher applied to the accumulated buffer: sanitize, look
for the sentinel at the start of a line, and if found produce the resolved
text.  `none` means the capture stays in flight. -/
def processBuffer (buffer : List Char) : Option String :=
  let stripped := stripAnsiChars buffer
  match sentinelMatchIdx stripped with
  | none => none
  | some i => some (String.mk (extractOutput stripped i))

/-- Events that can reach one command-capture session: an `ssh:output`
chunk, the 20s timer firing, or `abortAgentCapture`. -/
inductive CmdEvent where
  | output (data : List Char)
  | timerFire
  | abort
deriving DecidableEq

/-- State of one `runAgentCommand` call: `ref` mirrors
`agentCaptureRef.current` (the accumulation buffer while in flight),
`timerActive` whether the 20s timer is still pending, and `resolutions`
the values passed to the `resolve` callback so far. -/
structure CmdSession where
  ref : Option (List Char)
  timerActive : Bool
  resolutions : List String
deriving DecidableEq

/-- Diagnostic placeholder of the 20s timeout handler. -/
def timeoutMessage : String :=
  "(command timed out after 20s — it may be waiting for input)"

/-- Placeholder used when an abort finds an empty capture. -/
def abortedMessage : String := "(aborted by user)"

/-- Value resolved by the timeout handler: the sanitized trimmed buffer,
or the diagnostic placeholder when that is empty. -/
def timeoutResult (buffer : List Char) : String :=
  let raw := jsTrim (stripAnsiChars buffer)
  if raw = [] then timeoutMessage else String.mk raw

/-- Value resolved by `abortAgentCapture` for a command capture: the
sanitized trimmed buffer, or the aborted placeholder when empty. -/
def abortResult (buffer : List Char) : String :=
  let raw := jsTrim (stripAnsiChars buffer)
  if raw = [] then abortedMessage else String.mk raw

/-- Transition of a command-capture session on one event, transcribed from
the `ssh:output` handler, the `setTimeout` callback of `runAgentCommand`,
and the command branch of `abortAgentCapture`. -/
def stepCmd (s : CmdSession) (e : CmdEvent) : CmdSession :=
  match e, s.ref with
  | .output data, some buf =>
    let buf2 := buf ++ data
    match processBuffer buf2 with
    | some out => ⟨none, false, s.resolutions ++ [out]⟩
    | none => ⟨some buf2, s.timerActive, s.resolutions⟩
  | .output _, none => s
  | .timerFire, some buf =>
    if s.timerActive then ⟨none, false, s.resolutions ++ [timeoutResult buf]⟩
    else s
  | .timerFire, none =>
    if s.timerActive then ⟨none, false, s.resolutions⟩ else s
  | .abort, some buf => ⟨none, false, s.resolutions ++ [abortResult buf]⟩
  | .abort, none => s

/-- State of a capture right after `runAgentCommand` registers it:
empty buffer, timer pending, nothing resolved. -/
def initCmd : CmdSession := ⟨some [], true, []⟩

/-- A whole event trace applied to a session. -/
def runCmdEvents (s : CmdSession) (es : List CmdEvent) : CmdSession :=
  es.foldl stepCmd s

/-- Session invariant: either still in flight with nothing resolved, or
resolved exactly once with the ref cleared. -/
def cmdInv (s : CmdSession) : Prop :=
  (s.ref.isSome = true ∧ s.timerActive = true ∧ s.resolutions = []) ∨
  (s.ref = none ∧ s.resolutions.length = 1)

/-! ## Keystroke capture session (`sendAgentKeys`) -/

/-- Placeholder resolved when the 3s dwell window saw no output. -/
def noKeysOutputMessage : String := "(no visible output after sending keys)"

/-- Events reaching one `sendAgentKeys` call. -/
inductive KeysEvent where
  | output (data : List Char)
  | timerFire
  | abort
deriving DecidableEq

/-- State of one `sendAgentKeys` call: the closure variable `outputBuffer`,
whether `agentKeysRef.current` is still set (listener attached, timer
pending), and the resolved values. -/
structure KeysSession where
  buffer : List Char
  active : Bool
  resolutions : List String
deriving DecidableEq

/-- Transition of a keystroke-capture session, transcribed from the
`onOutput` listener, the 3s dwell timer, and the keys branch of
`abortAgentCapture`.  Note the abort branch resolves the bare placeholder:
the accumulated buffer is not stored on `agentKeysRef` and is discarded. -/
def stepKeys (s : KeysSession) (e : KeysEvent) : KeysSession :=
  match e with
  | .output data => if s.active then ⟨s.buffer ++ data, s.active, s.resolutions⟩ else s
  | .timerFire =>
    if s.active then
      let cleaned := jsTrim (stripAnsiChars s.buffer)
      ⟨s.buffer, false,
        s.resolutions ++ [if cleaned = [] then noKeysOutputMessage else String.mk cleaned]⟩
    else s
  | .abort =>
    if s.active then ⟨s.buffer, false, s.resolutions ++ [abortedMessage]⟩ else s

/-- State right after `sendAgentKeys` attaches its listener and timer. -/
def initKeys : KeysSession := ⟨[], true, []⟩

/-- Both capture slots of one Terminal instance. -/
structure CaptureSystem where
  cmd : CmdSession
  keys : KeysSession
deriving DecidableEq

/-- The `abortAgentCapture` handle: aborts the command capture (if any) and the keys
capture (if any); each branch is a no-op when its slot is empty. -/
def abortAgentCapture (cs : CaptureSystem) : CaptureSystem :=
  ⟨stepCmd cs.cmd .abort, stepKeys cs.keys .abort⟩

/-! ## Wire payload of `runAgentCommand` -/

/-- The command as written to the transport: prefixed with `PAGER=cat` so
pagers do not trap the agent. -/
def wrappedCommand (command : String) : String := "PAGER=cat " ++ command

/-- The full payload emitted on `ssh:data`:
`` `${wrappedCmd}\necho ${AGENT_SENTINEL}\n` ``. -/
def commandPayload (command : String) : String :=
  wrappedCommand command ++ "\n" ++ "echo " ++ AGENT_SENTINEL ++ "\n"

/-! ## Agent control loop (`startAgentLoop` of the GeminiChat component) -/

/-- One part of a conversation turn, after the Vertex AI calling
convention: plain text, a tool invocation, or a tool result. -/
inductive HPart where
  | text (t : String)
  | functionCall (name : String) (args : List (String × String))
  | functionResponse (name : String) (output : String)
deriving DecidableEq

/-- One history entry: a role (`"user"` or `"model"`) with parts. -/
structure HEntry where
  role : String
  parts : List HPart
deriving DecidableEq

/-- Status of a UI step card. -/
inductive StepStatus where
  | running
  | done
  | timeout
deriving DecidableEq

/-- UI-facing agent step, as appended to `agentSteps` (collapsed to its
final mutation: dispatch and resolution folded into one record). -/
inductive Step where
  | command (cmd reasoning output : String) (status : StepStatus)
  | sendKeys (keys reasoning output : String)
  | complete (summary : String)
  | aborted
  | error (msg : String)
deriving DecidableEq

/-- Interpreted model response of one turn (`runAgentStep`). -/
inductive AgentResult where
  | text (t : String)
  | complete (summary : String)
  | command (command reasoning : String)
  | sendKeys (keys reasoning : String)
deriving DecidableEq

/-- Terminal outcome of one loop invocation. -/
inductive Outcome where
  | abortedOut
  | textOut
  | completeOut
deriving DecidableEq

/-- Environment of one loop iteration: what the collaborators and the
user-facing controls do while this iteration runs.  `blockedStop` tells
whether, should the loop block in the pause gate this iteration, the
unblocking call is `stopAgent` (true) or `resumeAgent` (false).
`mcPause`/`mcStop` say whether `pauseAgent`/`stopAgent` fire during the
awaited model call, `response` is the interpreted model response,
`capPause`/`capStop` the control calls during the awaited capture, and
`capOutput` the capture result. -/
structure IterEnv where
  blockedStop : Bool
  mcPause : Bool
  mcStop : Bool
  response : AgentResult
  capPause : Bool
  capStop : Bool
  capOutput : String

/-- JavaScript `includes`: the needle occurs as a contiguous
subsequence of the haystack. -/
def containsSub (needle : List Char) : List Char → Bool
  | [] => needle.isEmpty
  | c :: cs => needle.isPrefixOf (c :: cs) || containsSub needle cs

/-- The timeout heuristic of `executeAgentCommand`: the capture output
includes the text of either timeout marker. -/
def timedOutHeuristic (out : String) : Bool :=
  containsSub "timed out".data out.data || containsSub "waiting for input".data out.data

/-- Loop state: conversation history, step cards, the `abortAgentRef`
flag, whether a pause is pending (`pausedResolverRef` holding
the pending marker), number of model calls made, and the outcome once
halted. -/
structure LoopSt where
  history : List HEntry
  steps : List Step
  abortFlag : Bool
  pausePending : Bool
  calls : Nat
  outcome : Option Outcome
deriving DecidableEq

/-- Abort exit: append the aborted step marker and halt. -/
def abortHalt (st : LoopSt) : LoopSt :=
  { st with steps := st.steps ++ [Step.aborted], outcome := some Outcome.abortedOut }

/-- The pause gate at the top of an iteration: when a pause is pending the
loop blocks on a promise whose resolver is released by `resumeAgent` or
`stopAgent`; a release by `stopAgent` has set the abort flag. -/
def pauseGate (e : IterEnv) (st : LoopSt) : LoopSt :=
  if st.pausePending then { st with pausePending := false, abortFlag := e.blockedStop }
  else st

/-- Halt after a plain-text model response. -/
def finishText (t : String) (st : LoopSt) : LoopSt :=
  { st with history := st.history ++ [⟨"model", [HPart.text t]⟩],
            outcome := some Outcome.textOut }

/-- Halt after a `task_complete` tool call: model entry, completion step,
synthetic acknowledging tool result. -/
def finishComplete (summary : String) (st : LoopSt) : LoopSt :=
  { st with
      history := st.history ++
        [⟨"model", [HPart.functionCall "task_complete" [("summary", summary)]]⟩,
         ⟨"user", [HPart.functionResponse "task_complete" "acknowledged"]⟩],
      steps := st.steps ++ [Step.complete summary],
      outcome := some Outcome.completeOut }

/-- Effect of `executeAgentCommand`: step card, history pair, the timeout
heuristic escalating into the abort flag, plus any control calls that
arrived during the awaited capture. -/
def afterCommand (e : IterEnv) (c r : String) (st : LoopSt) : LoopSt :=
  let out := e.capOutput
  let tOut := timedOutHeuristic out
  { st with
      steps := st.steps ++ [Step.command c r out (if tOut then StepStatus.timeout else StepStatus.done)],
      history := st.history ++
        [⟨"model", [HPart.functionCall "run_command" [("command", c), ("reasoning", r)]]⟩,
         ⟨"user", [HPart.functionResponse "run_command" out]⟩],
      abortFlag := st.abortFlag || e.capStop || tOut,
      pausePending := st.pausePending || e.capPause }

/-- Effect of `executeAgentSendKeys`. -/
def afterSendKeys (e : IterEnv) (k r : String) (st : LoopSt) : LoopSt :=
  { st with
      steps := st.steps ++ [Step.sendKeys k r e.capOutput],
      history := st.history ++
        [⟨"model", [HPart.functionCall "send_keys" [("keys", k), ("reasoning", r)]]⟩,
         ⟨"user", [HPart.functionResponse "send_keys" e.capOutput]⟩],
      abortFlag := st.abortFlag || e.capStop,
      pausePending := st.pausePending || e.capPause }

/-- The awaited model call of one iteration: one more call is issued, and
the abort/pause flags afterwards reflect exactly the `stopAgent` and
`pauseAgent` invocations that arrived during the await (they were cleared
before it started). -/
def modelTurn (e : IterEnv) (st : LoopSt) : LoopSt :=
  { st with calls := st.calls + 1, abortFlag := e.mcStop, pausePending := e.mcPause }

/-- The `for (let i = 0; i < maxIterations; i++)` body of `startAgentLoop`:
abort check, pause gate with abort re-check, model turn (during which
pause/stop may fire), then dispatch on the interpreted response; `command`
and `send_keys` continue the loop, the rest halt. -/
def loopGo (env : Nat → IterEnv) : Nat → Nat → LoopSt → LoopSt
  | 0, _, st => st
  | n + 1, i, st =>
    if st.abortFlag then abortHalt st
    else if (pauseGate (env i) st).abortFlag then abortHalt (pauseGate (env i) st)
    else
      match (env i).response with
      | .text t => finishText t (modelTurn (env i) (pauseGate (env i) st))
      | .complete summary => finishComplete summary (modelTurn (env i) (pauseGate (env i) st))
      | .command c r =>
        loopGo env n (i + 1) (afterCommand (env i) c r (modelTurn (env i) (pauseGate (env i) st)))
      | .sendKeys k r =>
        loopGo env n (i + 1) (afterSendKeys (env i) k r (modelTurn (env i) (pauseGate (env i) st)))

/-- The `const maxIterations = 20` bound. -/
def maxIterations : Nat := 20

/-- Entry of the loop: extend the captured history with the user turn and
run up to `maxIterations` iterations. -/
def startAgentLoop (env : Nat → IterEnv) (userText : String)
    (prevHistory : List HEntry) : LoopSt :=
  loopGo env maxIterations 0
    { history := prevHistory ++ [⟨"user", [HPart.text userText]⟩],
      steps := [], abortFlag := false, pausePending := false,
      calls := 0, outcome := none }

/-! ## Retry (`retryAgent`) -/

/-- Component state relevant to `retryAgent`. -/
structure GeminiState where
  agentHistory : List HEntry
  agentRunning : Bool
  lastAgentPrompt : Option String
deriving DecidableEq

/-- History handed to the first model turn of a retry, or `none` when
retry is a no-op (loop running, or no stored prompt).  `retryAgent` calls
`setAgentHistory([])` and then invokes the `startAgentLoop` closure of the
current render; that closure captured the render-time `agentHistory`
value, and a React state update is not visible until the next render, so
the loop begins from `[...agentHistory, userEntry]` with the captured
(pre-reset) history — not from the empty one. -/
def retryInitialHistory (s : GeminiState) : Option (List HEntry) :=
  match s.lastAgentPrompt with
  | none => none
  | some p =>
    if s.agentRunning then none
    else some (s.agentHistory ++ [⟨"user", [HPart.text p]⟩])

/-! ## Terminal-sharing relay (`geminiRoutes.js`) -/

/-- Messages of the relay wire protocol that matter here. -/
inductive RelayMsg where
  | shareCode (code : String)
  | connected (code : String)
  | viewerJoined (count : Nat)
  | viewerLeft (count : Nat)
  | hostDisconnected (reason : String)
  | expired (reason : String)
  | errorMsg (reason : String)
deriving DecidableEq

/-- A WebSocket connection: whether it is OPEN, the protocol messages sent
to it, and whether `close()` has been called on it. -/
structure Conn where
  isOpen : Bool
  sent : List RelayMsg
  closed : Bool
deriving DecidableEq

/-- Send a message to a connection. -/
def sendMsg (m : RelayMsg) (c : Conn) : Conn := { c with sent := c.sent ++ [m] }

/-- Close a connection. -/
def closeConn (c : Conn) : Conn := { c with isOpen := false, closed := true }

/-- One relay session: its host connection and viewer set. -/
structure SessionRec where
  host : Conn
  viewers : List Conn
deriving DecidableEq

/-- The session store (`sessions` Map), keyed by share code. -/
structure RelayStore where
  sessions : List (String × SessionRec)
deriving DecidableEq

/-- Error sent to a viewer whose code has no session. -/
def invalidCodeMessage : String := "Invalid or expired share code"

/-- Reason sent to each open viewer on cleanup. -/
def hostStoppedMessage : String := "Host stopped sharing"

/-- Error sent to a viewer that supplied no code. -/
def missingCodeMessage : String := "Missing share code"

/-- Cleanup treatment of one viewer: open viewers get the
host-disconnected notice and are closed; already-closed viewers are
skipped. -/
def notifyAndCloseViewer (v : Conn) : Conn :=
  if v.isOpen then closeConn (sendMsg (.hostDisconnected hostStoppedMessage) v) else v

/-- Cleanup treatment of the host connection. -/
def closeHostConn (h : Conn) : Conn := if h.isOpen then closeConn h else h

/-- Result of `cleanupSession`: the updated store plus the final states of
the released session connections (the mutated `ws` objects). -/
structure CleanupResult where
  store : RelayStore
  viewers : List Conn
  host : Option Conn
deriving DecidableEq

/-- Deletion of a code from the session store, as `Map.delete` does on a
unique-key map. -/
def removeSession (code : String) (l : List (String × SessionRec)) :
    List (String × SessionRec) :=
  l.filter (fun p => !(p.1 == code))

/-- The `cleanupSession` handler: no-op when the code has no session;
otherwise clear the expiry timer, notify and close every open viewer,
close the host, and delete the session from the store.  Called both by the
TTL expiry timer and by the host-disconnect handler. -/
def cleanupSession (code : String) (store : RelayStore) : CleanupResult :=
  match store.sessions.lookup code with
  | none => ⟨store, [], none⟩
  | some sess =>
    ⟨⟨removeSession code store.sessions⟩,
     sess.viewers.map notifyAndCloseViewer,
     some (closeHostConn sess.host)⟩

/-- The `handleViewer` handler: reject a missing code, reject an
unknown code with the invalid-or-expired error, otherwise add the viewer,
notify the host of the new count, and confirm the connection.  Returns the
updated store and the final state of the viewer connection. -/
def handleViewer (code : String) (v : Conn) (store : RelayStore) :
    RelayStore × Conn :=
  if code = "" then
    (store, closeConn (sendMsg (.errorMsg missingCodeMessage) v))
  else
    match store.sessions.lookup code with
    | none => (store, closeConn (sendMsg (.errorMsg invalidCodeMessage) v))
    | some sess =>
      let v2 := sendMsg (.connected code) v
      let host2 :=
        if sess.host.isOpen then sendMsg (.viewerJoined (sess.viewers.length + 1)) sess.host
        else sess.host
      (⟨store.sessions.map (fun p =>
          if p.1 = code then (p.1, ⟨host2, sess.viewers ++ [v2]⟩) else p)⟩,
       v2)

/-! ## Concrete inputs used by witnesses and counterexamples -/

/-- Well-formed echoed stream of the specification example. -/
def c1Stream : List Char := "ls\nfile1\nfile2\n__JUNI_AGENT_DONE__\n".data

/-- Environment of the pause-stop counterexample: while the first model
call is awaited the user clicks Pause and then Stop, and the model call
returns a plain-text response. -/
def envPauseStopText : Nat → IterEnv := fun _ =>
  { blockedStop := false, mcPause := true, mcStop := true,
    response := .text "done", capPause := false, capStop := false,
    capOutput := "" }

/-- Environment whose pause-gate release is a Stop click. -/
def envBlockedStop : Nat → IterEnv := fun _ =>
  { blockedStop := true, mcPause := false, mcStop := false,
    response := .text "done", capPause := false, capStop := false,
    capOutput := "" }

/-- Loop state blocked-bound: a pause is pending at the top of iteration 0. -/
def pausePendingSt : LoopSt :=
  { history := [], steps := [], abortFlag := false, pausePending := true,
    calls := 0, outcome := none }

/-- Capture system with both a command capture and a keys capture in
flight, output already accumulated on each. -/
def capW : CaptureSystem :=
  ⟨⟨some "hi".data, true, []⟩, ⟨"kb".data, true, []⟩⟩

/-- Component state exhibiting the retry history bug: a finished prior
task sits in `agentHistory` and its prompt is stored. -/
def retryBugState : GeminiState :=
  { agentHistory := [⟨"user", [HPart.text "earlier task"]⟩,
                     ⟨"model", [HPart.text "earlier answer"]⟩],
    agentRunning := false,
    lastAgentPrompt := some "list files" }

/-- A fresh open connection. -/
def relayConnW : Conn := ⟨true, [], false⟩

/-- A relay session with one open viewer. -/
def relaySessW : SessionRec := ⟨relayConnW, [relayConnW]⟩

/-- A store holding the session under a known code. -/
def relayStoreW : RelayStore := ⟨[("c0de", relaySessW)]⟩

/-! ## Helper lemmas -/

theorem replaceAllGo_id (m : List Char → Option Nat) :
    ∀ (l : List Char) (fuel : Nat), hasMatchAnywhere m l = false →
      replaceAllGo m fuel l = l := by
  intro l
  induction l with
  | nil => intro fuel _; cases fuel <;> rfl
  | cons c cs ih =>
    intro fuel h
    have h1 : m (c :: cs) = none := by
      cases hm : m (c :: cs) with
      | none => rfl
      | some v => simp [hasMatchAnywhere, hm] at h
    have h2 : hasMatchAnywhere m cs = false := by
      simp [hasMatchAnywhere, h1] at h
      exact h
    cases fuel with
    | zero => rfl
    | succ f => simp [replaceAllGo, h1, ih f h2]

theorem replaceAll_id (m : List Char → Option Nat) (l : List Char)
    (h : hasMatchAnywhere m l = false) : replaceAll m l = l :=
  replaceAllGo_id m l l.length h

theorem drop_length_append (l₁ l₂ : List Char) :
    (l₁ ++ l₂).drop l₁.length = l₂ := by
  induction l₁ with
  | nil => simp
  | cons c cs ih => simp

theorem take_length_append (l₁ l₂ : List Char) :
    (l₁ ++ l₂).take l₁.length = l₁ := by
  induction l₁ with
  | nil => simp
  | cons c cs ih => simp

theorem isPrefixOf_append_self (l t : List Char) :
    l.isPrefixOf (l ++ t) = true := by
  induction l with
  | nil => simp [List.isPrefixOf]
  | cons c cs ih => simp [List.isPrefixOf, ih]

theorem sentinelMatchIdx_spec :
    ∀ (n : Nat) (l : List Char),
      isSentinelAt (l.drop n) = true →
      (∀ j, j < n → isSentinelAt (l.drop j) = false) →
      sentinelMatchIdx l = some n := by
  intro n
  induction n with
  | zero =>
    intro l hn _
    cases l with
    | nil => simp [isSentinelAt] at hn
    | cons c cs => simp only [List.drop] at hn; simp [sentinelMatchIdx, hn]
  | succ n ih =>
    intro l hn hlt
    cases l with
    | nil => simp [isSentinelAt] at hn
    | cons c cs =>
      have h0 : isSentinelAt (c :: cs) = false := by
        simpa using hlt 0 (Nat.succ_pos n)
      have hn2 : isSentinelAt (cs.drop n) = true := by
        simpa [List.drop_succ_cons] using hn
      have hlt2 : ∀ j, j < n → isSentinelAt (cs.drop j) = false := by
        intro j hj
        simpa [List.drop_succ_cons] using hlt (j + 1) (Nat.succ_lt_succ hj)
      simp [sentinelMatchIdx, h0, ih cs hn2 hlt2]

theorem indexOfNL_append (echo body : List Char) (h : ∀ c ∈ echo, c ≠ '\n') :
    indexOfNL (echo ++ '\n' :: body) = some echo.length := by
  induction echo with
  | nil => simp [indexOfNL]
  | cons c cs ih =>
    have hc : c ≠ '\n' := h c (by simp)
    have ih2 := ih (fun x hx => h x (by simp [hx]))
    simp [indexOfNL, hc, ih2]

theorem processBuffer_wellformed (stream echo body rest : List Char)
    (hshape : stripAnsiChars stream = (echo ++ '\n' :: body) ++ '\n' :: (sentinelChars ++ rest))
    (hecho : ∀ c ∈ echo, c ≠ '\n')
    (hearly : ∀ j, j < (echo ++ '\n' :: body).length →
      isSentinelAt (((echo ++ '\n' :: body) ++ '\n' :: (sentinelChars ++ rest)).drop j) = false) :
    processBuffer stream = some (String.mk (jsTrim body)) := by
  have hn : isSentinelAt
      (((echo ++ '\n' :: body) ++ '\n' :: (sentinelChars ++ rest)).drop
        (echo ++ '\n' :: body).length) = true := by
    rw [drop_length_append]
    simp [isSentinelAt, isPrefixOf_append_self]
  have hidx : sentinelMatchIdx (stripAnsiChars stream) = some (echo ++ '\n' :: body).length := by
    rw [hshape]
    exact sentinelMatchIdx_spec _ _ hn hearly
  have htake : ((echo ++ '\n' :: body) ++ '\n' :: (sentinelChars ++ rest)).take
      (echo ++ '\n' :: body).length = echo ++ '\n' :: body := take_length_append _ _
  have hdrop : (echo ++ '\n' :: body).drop (echo.length + 1) = body := by
    have hsplit : echo ++ '\n' :: body = (echo ++ ['\n']) ++ body := by simp
    have hlen : (echo ++ ['\n']).length = echo.length + 1 := by simp
    rw [hsplit, ← hlen, drop_length_append]
  have hext : extractOutput ((echo ++ '\n' :: body) ++ '\n' :: (sentinelChars ++ rest))
      (echo ++ '\n' :: body).length = jsTrim body := by
    simp only [extractOutput, htake, indexOfNL_append echo body hecho]
    rw [hdrop]
  rw [hshape] at hidx
  unfold processBuffer
  rw [hshape]
  simp only [hidx, hext]

/-! ## Claim theorems -/

/-- C2 counterexample: `sanitize` is not idempotent.  On the input
`"[[am"` the bare-bracket pass removes the inner bracket sequence and
thereby splices together a new one, which only a second application
removes. -/
theorem sanitize_not_idempotent :
    stripAnsiChars (stripAnsiChars ("[[am".data)) ≠ stripAnsiChars ("[[am".data) := by
  decide

/-- C2 amended: for every input containing no escape sequences (no
occurrence of any of the eight stripped patterns), `sanitize(x) = x`, and
consequently `sanitize` is idempotent on such inputs.  Unconditional
idempotence fails (see the counterexample). -/
theorem sanitize_escape_free_fixed (l : List Char) (h : escapeFree l = true) :
    stripAnsiChars l = l ∧ stripAnsiChars (stripAnsiChars l) = stripAnsiChars l := by
  simp only [escapeFree, Bool.and_eq_true, Bool.not_eq_true'] at h
  obtain ⟨⟨⟨⟨⟨⟨⟨h1, h2⟩, h3⟩, h4⟩, h5⟩, h6⟩, h7⟩, h8⟩ := h
  have hfix : stripAnsiChars l = l := by
    unfold stripAnsiChars
    rw [replaceAll_id _ _ h1, replaceAll_id _ _ h2, replaceAll_id _ _ h3,
      replaceAll_id _ _ h4, replaceAll_id _ _ h5, replaceAll_id _ _ h6,
      replaceAll_id _ _ h7, replaceAll_id _ _ h8]
  exact ⟨hfix, by rw [hfix, hfix]⟩

/-- Witness for the amended C2 theorem at a concrete escape-free input. -/
theorem sanitize_escape_free_fixed_witness :
    escapeFree ("hello, world".data) = true ∧
      stripAnsiChars ("hello, world".data) = "hello, world".data :=
  ⟨by decide, (sanitize_escape_free_fixed ("hello, world".data) (by decide)).1⟩

/-- C1: for a well-formed sentinel-terminated stream delivered to an
in-flight `runCommand` capture — the sanitized buffer splits into an
echoed command line, a body, and the sentinel on its own line, with no
earlier sentinel-at-line-start occurrence — the capture resolves with
exactly the body between the first newline and the sentinel line,
sanitized and trimmed. -/
theorem runCommand_captures_between_echo_and_sentinel
    (stream echo body rest : List Char)
    (hshape : stripAnsiChars stream = (echo ++ '\n' :: body) ++ '\n' :: (sentinelChars ++ rest))
    (hecho : ∀ c ∈ echo, c ≠ '\n')
    (hearly : ∀ j, j < (echo ++ '\n' :: body).length →
      isSentinelAt (((echo ++ '\n' :: body) ++ '\n' :: (sentinelChars ++ rest)).drop j) = false) :
    stepCmd initCmd (CmdEvent.output stream) =
      ⟨none, false, [String.mk (jsTrim body)]⟩ := by
  have hp := processBuffer_wellformed stream echo body rest hshape hecho hearly
  simp [stepCmd, initCmd, hp]

/-- Witness for C1: the specification example stream, echoed command
`ls`, body `file1\nfile2`. -/
theorem runCommand_captures_witness :
    stepCmd initCmd (CmdEvent.output c1Stream) = ⟨none, false, ["file1\nfile2"]⟩ := by
  have h := runCommand_captures_between_echo_and_sentinel c1Stream
    ("ls".data) ("file1\nfile2".data) ("\n".data) (by decide) (by decide) (by decide)
  rw [h]
  decide

/-! Exactly-once resolution of a command capture (C3). -/

theorem stepCmd_inv (s : CmdSession) (e : CmdEvent) (h : cmdInv s) :
    cmdInv (stepCmd s e) := by
  obtain ⟨ref, tA, res⟩ := s
  rcases h with ⟨h1, h2, h3⟩ | ⟨h1, h2⟩
  · obtain ⟨buf, hb⟩ := Option.isSome_iff_exists.mp h1
    simp only at hb h2 h3
    subst hb h2 h3
    cases e with
    | output data =>
      cases hp : processBuffer (buf ++ data) with
      | some out => right; simp [stepCmd, hp]
      | none => left; simp [stepCmd, hp]
    | timerFire => right; simp [stepCmd]
    | abort => right; simp [stepCmd]
  · simp only at h1
    subst h1
    cases e with
    | output data => right; simpa [stepCmd] using h2
    | timerFire =>
      cases tA with
      | false => right; simpa [stepCmd] using h2
      | true => right; simpa [stepCmd] using h2
    | abort => right; simpa [stepCmd] using h2

theorem stepCmd_resolver (s : CmdSession) (e : CmdEvent) (h : cmdInv s)
    (he : e = CmdEvent.timerFire ∨ e = CmdEvent.abort) :
    (stepCmd s e).ref = none ∧ (stepCmd s e).resolutions.length = 1 := by
  obtain ⟨ref, tA, res⟩ := s
  rcases h with ⟨h1, h2, h3⟩ | ⟨h1, h2⟩
  · obtain ⟨buf, hb⟩ := Option.isSome_iff_exists.mp h1
    simp only at hb h2 h3
    subst hb h2 h3
    rcases he with he | he <;> subst he <;> simp [stepCmd]
  · simp only at h1
    subst h1
    rcases he with he | he <;> subst he
    · cases tA <;> simpa [stepCmd] using h2
    · simpa [stepCmd] using h2

theorem runCmdEvents_inv (s : CmdSession) (es : List CmdEvent) (h : cmdInv s) :
    cmdInv (runCmdEvents s es) := by
  induction es generalizing s with
  | nil => simpa [runCmdEvents] using h
  | cons e es ih =>
    have h2 := stepCmd_inv s e h
    simpa [runCmdEvents, List.foldl_cons] using ih (stepCmd s e) h2

theorem runCmdEvents_resolved (s : CmdSession) (es : List CmdEvent)
    (h1 : s.ref = none) (h2 : s.resolutions.length = 1) :
    (runCmdEvents s es).resolutions.length = 1 := by
  induction es generalizing s with
  | nil => simpa [runCmdEvents] using h2
  | cons e es ih =>
    have hinv : cmdInv s := Or.inr ⟨h1, h2⟩
    have h3 := stepCmd_inv s e hinv
    rcases h3 with ⟨hs1, _, _⟩ | ⟨hs1, hs2⟩
    · exfalso
      obtain ⟨ref, tA, res⟩ := s
      simp only at h1
      subst h1
      cases e with
      | output data => simp [stepCmd] at hs1
      | timerFire => cases tA <;> simp [stepCmd] at hs1
      | abort => simp [stepCmd] at hs1
    · simpa [runCmdEvents, List.foldl_cons] using ih (stepCmd s e) hs1 hs2

theorem runCmdEvents_once (s : CmdSession) (es : List CmdEvent) (h : cmdInv s)
    (hmem : CmdEvent.timerFire ∈ es ∨ CmdEvent.abort ∈ es) :
    (runCmdEvents s es).resolutions.length = 1 := by
  induction es generalizing s with
  | nil => rcases hmem with hmem | hmem <;> simp at hmem
  | cons e es ih =>
    by_cases hres : e = CmdEvent.timerFire ∨ e = CmdEvent.abort
    · have h3 := stepCmd_resolver s e h hres
      simpa [runCmdEvents, List.foldl_cons] using
        runCmdEvents_resolved (stepCmd s e) es h3.1 h3.2
    · have hmem2 : CmdEvent.timerFire ∈ es ∨ CmdEvent.abort ∈ es := by
        push_neg at hres
        rcases hmem with hmem | hmem
        · rcases List.mem_cons.mp hmem with hmem | hmem
          · exact absurd hmem.symm hres.1
          · exact Or.inl hmem
        · rcases List.mem_cons.mp hmem with hmem | hmem
          · exact absurd hmem.symm hres.2
          · exact Or.inr hmem
      simpa [runCmdEvents, List.foldl_cons] using
        ih (stepCmd s e) (stepCmd_inv s e h) hmem2

/-- C3: across any event trace reaching one `runCommand` capture, the
promise is resolved at most once, and — since the 20s timer always
eventually fires unless a sentinel or abort already resolved the capture —
any trace containing a timer or abort event resolves it exactly once,
regardless of how many output events arrive after the first resolution. -/
theorem runCommand_resolves_once (es : List CmdEvent) :
    (runCmdEvents initCmd es).resolutions.length ≤ 1 ∧
      ((CmdEvent.timerFire ∈ es ∨ CmdEvent.abort ∈ es) →
        (runCmdEvents initCmd es).resolutions.length = 1) := by
  have hinv : cmdInv initCmd := Or.inl ⟨rfl, rfl, rfl⟩
  constructor
  · rcases runCmdEvents_inv initCmd es hinv with ⟨_, _, h3⟩ | ⟨_, h2⟩
    · simp [h3]
    · omega
  · exact runCmdEvents_once initCmd es hinv

/-- Witness for C3: a sentinel resolution followed by a late output chunk
and the timer firing still yields exactly one resolution. -/
theorem runCommand_resolves_once_witness :
    (runCmdEvents initCmd
      [CmdEvent.output c1Stream, CmdEvent.output ("late".data),
       CmdEvent.timerFire]).resolutions.length = 1 :=
  (runCommand_resolves_once _).2 (Or.inl (by decide))

/-- C4 counterexample: when output accumulated but no sentinel arrived,
the timeout handler resolves with the accumulated output itself, which is
not a diagnostic noting a probable wait-for-input condition. -/
theorem timeout_diagnostic_counterexample :
    (runCmdEvents initCmd
      [CmdEvent.output ("ls\npartial".data), CmdEvent.timerFire]).resolutions
        = ["ls\npartial"] ∧
      containsSub ("waiting for input".data) ("ls\npartial".data) = false := by
  decide

/-- C4 amended: if no sentinel match occurred before the timer fires, the
capture resolves — never rejects — with a non-empty string: the sanitized
trimmed accumulated output when any is present, otherwise the diagnostic
placeholder noting the 20s timeout and a probable wait-for-input
condition. -/
theorem timeoutResult_def (buf : List Char) :
    timeoutResult buf =
      if jsTrim (stripAnsiChars buf) = [] then timeoutMessage
      else String.mk (jsTrim (stripAnsiChars buf)) := rfl

theorem timeout_resolves_nonempty (s : CmdSession) (buf : List Char)
    (h1 : s.ref = some buf) (h2 : s.timerActive = true) :
    stepCmd s CmdEvent.timerFire = ⟨none, false, s.resolutions ++ [timeoutResult buf]⟩ ∧
      timeoutResult buf ≠ "" ∧
      (jsTrim (stripAnsiChars buf) = [] → timeoutResult buf = timeoutMessage) ∧
      (jsTrim (stripAnsiChars buf) ≠ [] →
        timeoutResult buf = String.mk (jsTrim (stripAnsiChars buf))) := by
  refine ⟨by simp [stepCmd, h1, h2], ?_⟩
  rw [timeoutResult_def]
  generalize jsTrim (stripAnsiChars buf) = raw
  by_cases hr : raw = []
  · refine ⟨?_, fun _ => by rw [if_pos hr], fun hc => absurd hr hc⟩
    rw [if_pos hr]
    decide
  · refine ⟨?_, fun hc => absurd hc hr, fun _ => by rw [if_neg hr]⟩
    rw [if_neg hr]
    intro hc
    apply hr
    cases raw with
    | nil => rfl
    | cons c cs => simp [String.ext_iff] at hc

/-- Witness for the amended C4 theorem: a capture that saw no output at
all resolves with the diagnostic placeholder. -/
theorem timeout_resolves_nonempty_witness :
    stepCmd initCmd CmdEvent.timerFire = ⟨none, false, [timeoutMessage]⟩ ∧
      timeoutResult [] ≠ "" := by
  have h := timeout_resolves_nonempty initCmd [] rfl rfl
  refine ⟨?_, h.2.1⟩
  rw [h.1]
  decide

/-! Iteration bound of the agent loop (C5). -/

theorem pauseGate_calls (e : IterEnv) (st : LoopSt) :
    (pauseGate e st).calls = st.calls := by
  unfold pauseGate
  split <;> rfl

theorem pauseGate_steps (e : IterEnv) (st : LoopSt) :
    (pauseGate e st).steps = st.steps := by
  unfold pauseGate
  split <;> rfl

theorem afterCommand_calls (e : IterEnv) (c r : String) (st : LoopSt) :
    (afterCommand e c r st).calls = st.calls := rfl

theorem afterSendKeys_calls (e : IterEnv) (k r : String) (st : LoopSt) :
    (afterSendKeys e k r st).calls = st.calls := rfl

theorem loopGo_calls (env : Nat → IterEnv) :
    ∀ (n i : Nat) (st : LoopSt), (loopGo env n i st).calls ≤ st.calls + n := by
  intro n
  induction n with
  | zero => intro i st; simp [loopGo]
  | succ n ih =>
    intro i st
    rw [loopGo]
    split
    · simp [abortHalt]
    · split
      · simp [abortHalt, pauseGate_calls]
      · split
        · simp [finishText, modelTurn, pauseGate_calls]
        · simp [finishComplete, modelTurn, pauseGate_calls]
        · refine le_trans (ih (i + 1) _) ?_
          simp [afterCommand_calls, modelTurn, pauseGate_calls]
          omega
        · refine le_trans (ih (i + 1) _) ?_
          simp [afterSendKeys_calls, modelTurn, pauseGate_calls]
          omega

/-- C5: a single task invocation of the agent control loop makes at most
`maxIterations = 20` model turns before halting, for every environment of
model responses, capture outputs, and control-call timings. -/
theorem agent_loop_bounded_calls (env : Nat → IterEnv) (userText : String)
    (prev : List HEntry) :
    (startAgentLoop env userText prev).calls ≤ maxIterations := by
  have h := loopGo_calls env maxIterations 0
    { history := prev ++ [⟨"user", [HPart.text userText]⟩],
      steps := [], abortFlag := false, pausePending := false,
      calls := 0, outcome := none }
  simpa [startAgentLoop] using h

/-- C6 counterexample: Pause is clicked and then Stop while the first
model call is in flight — stop therefore arrives before the loop reaches
its suspension point — and the model call returns a plain-text response:
the loop halts with the text outcome and never appends an aborted step
marker, falsifying the claim that this always ends in `aborted`. -/
theorem pause_stop_counterexample :
    (startAgentLoop envPauseStopText "task" []).outcome = some Outcome.textOut ∧
      Step.aborted ∉ (startAgentLoop envPauseStopText "task" []).steps := by
  decide

/-- C6 amended: pause followed by stop never leaves the loop deadlocked in
the paused state: whenever the stop has been observed at a
top-of-iteration check (abort flag set before the loop reaches its
suspension point), or a pause is pending and the blocked iteration is
released by Stop, the loop transitions to aborted and appends the aborted
step marker.  (If instead the in-flight model turn returns a terminal
text/complete response, the loop halts with that outcome — see the
counterexample.) -/
theorem pause_stop_aborts (env : Nat → IterEnv) (n i : Nat) (st : LoopSt)
    (h : st.abortFlag = true ∨ (st.pausePending = true ∧ (env i).blockedStop = true)) :
    (loopGo env (n + 1) i st).outcome = some Outcome.abortedOut ∧
      Step.aborted ∈ (loopGo env (n + 1) i st).steps := by
  rw [loopGo]
  rcases h with h | ⟨h1, h2⟩
  · simp [h, abortHalt]
  · by_cases hA : st.abortFlag
    · simp [hA, abortHalt]
    · have hB : (pauseGate (env i) st).abortFlag = true := by
        simp [pauseGate, h1, h2]
      simp [hA, hB, abortHalt, pauseGate_steps]

/-- Witness for the amended C6 theorem: a pending pause whose blocked
iteration is released by Stop ends aborted with the marker appended. -/
theorem pause_stop_aborts_witness :
    (loopGo envBlockedStop 20 0 pausePendingSt).outcome = some Outcome.abortedOut ∧
      Step.aborted ∈ (loopGo envBlockedStop 20 0 pausePendingSt).steps :=
  pause_stop_aborts envBlockedStop 19 0 pausePendingSt (Or.inr ⟨rfl, rfl⟩)

/-- C7 counterexample: a keys capture with output already accumulated
(`"hello"`, whose sanitized trim is non-empty) is aborted, yet the promise
resolves with the bare placeholder rather than the accumulated output. -/
theorem abort_keys_counterexample :
    (stepKeys (stepKeys initKeys (KeysEvent.output ("hello".data)))
        KeysEvent.abort).resolutions = [abortedMessage] ∧
      jsTrim (stripAnsiChars ("hello".data)) = "hello".data := by
  decide

theorem abortResult_def (buf : List Char) :
    abortResult buf =
      if jsTrim (stripAnsiChars buf) = [] then abortedMessage
      else String.mk (jsTrim (stripAnsiChars buf)) := rfl

/-- C7 amended: `abort()` on an in-flight command capture clears the timer
and resolves with the sanitized accumulated output, or the
`(aborted by user)` placeholder when nothing was captured; on an in-flight
keys capture it always resolves with the placeholder (the accumulated
output is discarded); with no outstanding capture it is a no-op on either
slot. -/
theorem abort_capture_behavior (cs : CaptureSystem) :
    (∀ buf, cs.cmd.ref = some buf →
      (abortAgentCapture cs).cmd = ⟨none, false, cs.cmd.resolutions ++ [abortResult buf]⟩) ∧
    (cs.keys.active = true →
      (abortAgentCapture cs).keys =
        ⟨cs.keys.buffer, false, cs.keys.resolutions ++ [abortedMessage]⟩) ∧
    (∀ buf : List Char, jsTrim (stripAnsiChars buf) = [] → abortResult buf = abortedMessage) ∧
    (∀ buf : List Char, jsTrim (stripAnsiChars buf) ≠ [] →
      abortResult buf = String.mk (jsTrim (stripAnsiChars buf))) ∧
    (cs.cmd.ref = none → (abortAgentCapture cs).cmd = cs.cmd) ∧
    (cs.keys.active = false → (abortAgentCapture cs).keys = cs.keys) := by
  refine ⟨?_, ?_, ?_, ?_, ?_, ?_⟩
  · intro buf hb
    simp [abortAgentCapture, stepCmd, hb]
  · intro hk
    simp [abortAgentCapture, stepKeys, hk]
  · intro buf hr
    rw [abortResult_def, if_pos hr]
  · intro buf
    rw [abortResult_def]
    generalize jsTrim (stripAnsiChars buf) = raw
    intro hr
    rw [if_neg hr]
  · intro hb
    simp [abortAgentCapture, stepCmd, hb]
  · intro hk
    simp [abortAgentCapture, stepKeys, hk]

/-- Witness for the amended C7 theorem on concrete in-flight captures. -/
theorem abort_capture_behavior_witness :
    (abortAgentCapture capW).cmd = ⟨none, false, ["hi"]⟩ ∧
      (abortAgentCapture capW).keys = ⟨"kb".data, false, [abortedMessage]⟩ := by
  have h := abort_capture_behavior capW
  refine ⟨?_, ?_⟩
  · rw [h.1 ("hi".data) rfl]
    decide
  · rw [h.2.1 rfl]
    rfl

/-- C8 counterexample: the wire payload of `runCommand "ls"` is not the
literal command followed by the sentinel echo — the command is prefixed
with `PAGER=cat `. -/
theorem payload_counterexample :
    commandPayload "ls" ≠ "ls\necho __JUNI_AGENT_DONE__\n" := by
  decide

/-- C8 amended: for every command, the wire payload is `PAGER=cat `
followed by the literal command, a newline, and the sentinel echo on its
own line. -/
theorem payload_composition (command : String) :
    commandPayload command = "PAGER=cat " ++ command ++ "\necho __JUNI_AGENT_DONE__\n" := by
  obtain ⟨l⟩ := command
  simp only [commandPayload, wrappedCommand, AGENT_SENTINEL, String.ext_iff,
    String.data_append, List.append_assoc]
  refine congrArg (fun t => "PAGER=cat ".data ++ (l ++ t)) ?_
  decide

/-- C9: evaluation at the failing input.  `retryAgent` is a no-op while
running or without a stored prompt, but a retry after a finished task
starts the loop from the stale captured history extended with the user
turn — not from a fresh history containing only the user turn, as both the
specification and the reset comment in the code require. -/
theorem retry_stale_history :
    retryInitialHistory retryBugState
        = some (retryBugState.agentHistory ++ [⟨"user", [HPart.text "list files"]⟩]) ∧
      retryInitialHistory retryBugState ≠ some [⟨"user", [HPart.text "list files"]⟩] ∧
      retryInitialHistory { retryBugState with agentRunning := true } = none ∧
      retryInitialHistory { retryBugState with lastAgentPrompt := none } = none := by
  decide

/-! Relay cleanup (C10). -/

theorem lookup_removeSession (code : String) (l : List (String × SessionRec)) :
    (removeSession code l).lookup code = none := by
  induction l with
  | nil => rfl
  | cons p t ih =>
    obtain ⟨a, b⟩ := p
    by_cases hac : a = code
    · subst hac
      simpa [removeSession, List.filter_cons] using ih
    · have h1 : (a == code) = false := beq_eq_false_iff_ne.mpr hac
      have h2 : (code == a) = false := beq_eq_false_iff_ne.mpr (Ne.symm hac)
      simp only [removeSession, List.filter_cons, h1, Bool.not_false, if_true]
      simpa [List.lookup, h2, removeSession] using ih

/-- C10: after a session is removed — `cleanupSession` is the common path
of both the TTL expiry timer and the host-disconnect teardown — every open
viewer has been sent the host-disconnected notice (distinguishable from
the invalid-code error) and closed; the code is gone from the store; a
subsequent viewer attach under that code receives the explicit
invalid-or-expired-code error and mutates nothing; and cleaning up again
under the same code leaves the store unchanged. -/
theorem relay_cleanup_behavior (store : RelayStore) (code : String) (sess : SessionRec)
    (v0 : Conn) (hs : store.sessions.lookup code = some sess) (hc : code ≠ "") :
    (cleanupSession code store).viewers = sess.viewers.map notifyAndCloseViewer ∧
    (∀ v ∈ sess.viewers, v.isOpen = true →
      notifyAndCloseViewer v =
        ⟨false, v.sent ++ [RelayMsg.hostDisconnected hostStoppedMessage], true⟩) ∧
    (cleanupSession code store).store.sessions.lookup code = none ∧
    handleViewer code v0 (cleanupSession code store).store =
      ((cleanupSession code store).store,
        ⟨false, v0.sent ++ [RelayMsg.errorMsg invalidCodeMessage], true⟩) ∧
    cleanupSession code (cleanupSession code store).store =
      ⟨(cleanupSession code store).store, [], none⟩ := by
  have hclean : cleanupSession code store =
      ⟨⟨removeSession code store.sessions⟩,
        sess.viewers.map notifyAndCloseViewer, some (closeHostConn sess.host)⟩ := by
    simp [cleanupSession, hs]
  have hlook : (RelayStore.mk (removeSession code store.sessions)).sessions.lookup code = none :=
    lookup_removeSession code store.sessions
  refine ⟨by rw [hclean], ?_, ?_, ?_, ?_⟩
  · intro v _ hv
    simp [notifyAndCloseViewer, hv, closeConn, sendMsg]
  · rw [hclean]
    exact hlook
  · rw [hclean]
    simp [handleViewer, hc, hlook, sendMsg, closeConn]
  · rw [hclean]
    simp [cleanupSession, hlook]

/-- Witness for C10 on a one-session store with one open viewer. -/
theorem relay_cleanup_behavior_witness :
    (cleanupSession "c0de" relayStoreW).store.sessions.lookup "c0de" = none ∧
      (cleanupSession "c0de" relayStoreW).viewers =
        [⟨false, [RelayMsg.hostDisconnected hostStoppedMessage], true⟩] ∧
      (handleViewer "c0de" relayConnW (cleanupSession "c0de" relayStoreW).store).2.sent =
        [RelayMsg.errorMsg invalidCodeMessage] ∧
      cleanupSession "c0de" (cleanupSession "c0de" relayStoreW).store =
        ⟨(cleanupSession "c0de" relayStoreW).store, [], none⟩ := by
  have h := relay_cleanup_behavior relayStoreW "c0de" relaySessW relayConnW (by decide) (by decide)
  refine ⟨h.2.2.1, ?_, ?_, h.2.2.2.2⟩
  · rw [h.1]
    decide
  · rw [h.2.2.2.1]
    rfl

end Juni
